import Mathlib

/-!
Verification of the orchestration core of a browser SDK
(`src/core/index.ts` and `src/core/paymentForms/stripeForm.ts`) against its
natural-language specification.

The development shallowly embeds the relevant parts of the source:

* `Gate`    — the readiness gate and callback queue (`ready`, `setReady`).
* `GateX`   — the same drain loop with throwing callbacks made explicit.
* `EventQ`  — the durable analytics event queue (`track`, `saveEventQueue`,
  the success handler of `trackEvent`), together with a JSON model of the
  cookie-persisted backlog.
* `Sel`     — the placement/paywall/product selection state
  (`setCurrentItems`, `currentPlacement`, `currentPaywall`,
  `currentProduct`, `readVariableValueByKeyPath`).
* `StripeFormM` — the submit handler installed by `setupForm` in the Stripe
  payment form.

Effectful statements (cookie writes, DOM updates, network scheduling,
navigation) are embedded as explicit effect-trace values so that ordering
and multiplicity can be stated and proved.
-/

/-- JSON values, used to model the free-form property bags carried by
events and products and the cookie-persisted representation of the event
backlog (`JSON.stringify`/`JSON.parse` round-trips are modelled at the
JSON-value level; string-level serialization belongs to the external JSON
library). -/
inductive Json where
  | null : Json
  | bool (b : Bool) : Json
  | num (n : Int) : Json
  | str (s : String) : Json
  | arr (items : List Json) : Json
  | obj (fields : List (String × Json)) : Json

namespace Gate

/-- A callback handed to `ready`.  `node i cs` is the callback with label
`i` whose body, when run, calls `ready` once for each element of `cs`, in
order (this is how re-entrant `ready` calls issued from inside a callback
are represented). -/
inductive Cb where
  | node (label : Nat) (children : List Cb)

def Cb.id : Cb → Nat
  | .node i _ => i

def Cb.children : Cb → List Cb
  | .node _ cs => cs

mutual

def Cb.size : Cb → Nat
  | .node _ cs => 1 + sizeList cs

def sizeList : List Cb → Nat
  | [] => 0
  | c :: cs => Cb.size c + sizeList cs

end

theorem sizeList_append (a b : List Cb) :
    sizeList (a ++ b) = sizeList a + sizeList b := by
  induction a with
  | nil => simp [sizeList]
  | cons c cs ih => simp [sizeList, ih]; omega

/-- State of the readiness gate.  Besides the source's `isReady` flag and
`queue`, we log `executed` (labels of callbacks in the order their bodies
ran) and `submitted` (labels in the order they were handed to `ready`,
whether from outside or re-entrantly). -/
structure GateState where
  isReady : Bool
  queue : List Cb
  executed : List Nat
  submitted : List Nat

/-- The drain loop of `setReady`:
`while ((callback = this.queue.shift())) { callback(); }`.
Executing `node i cs` logs `i` as executed and then performs the body's
re-entrant `ready` calls; since `isReady` is still `false` during the
drain, each such call appends the child to the queue and logs its
submission.  Returns the final `(executed, submitted)` logs; the loop only
terminates once the queue is empty. -/
def drainLoop : List Cb → List Nat → List Nat → List Nat × List Nat
  | [], ex, sub => (ex, sub)
  | .node i cs :: rest, ex, sub =>
      drainLoop (rest ++ cs) (ex ++ [i]) (sub ++ cs.map Cb.id)
termination_by q _ _ => sizeList q
decreasing_by
  simp [sizeList, Cb.size, sizeList_append]
  omega

/-- Immediate execution of callbacks once the gate is ready: `ready`
invokes the callback synchronously, and any nested `ready` calls it makes
run immediately as well (depth-first).  The pending synchronous calls are
represented as an explicit stack. -/
def readyNowStack : List Cb → GateState → GateState
  | [], st => st
  | .node i cs :: rest, st =>
      readyNowStack (cs ++ rest)
        { st with submitted := st.submitted ++ [i], executed := st.executed ++ [i] }
termination_by l _ => sizeList l
decreasing_by
  simp [sizeList, Cb.size, sizeList_append]

/-- Labels of a callback list in depth-first (synchronous-call) order. -/
def preorderList : List Cb → List Nat
  | [] => []
  | .node i cs :: rest => i :: preorderList (cs ++ rest)
termination_by l => sizeList l
decreasing_by
  simp [sizeList, Cb.size, sizeList_append]

/-- `ready(callback)`: run immediately if the gate is ready, otherwise
push onto the queue.  Either way the submission is logged. -/
def ready (c : Cb) (st : GateState) : GateState :=
  if st.isReady then readyNowStack [c] st
  else { st with queue := st.queue ++ [c], submitted := st.submitted ++ [c.id] }

/-- `setReady()`: drain the queue (the loop runs before `isReady` is set,
so re-entrant `ready` calls requeue and are consumed by the same loop),
then flip the flag.  The loop exits only when `shift()` finds the queue
empty. -/
def setReady (st : GateState) : GateState :=
  { isReady := true
    queue := []
    executed := (drainLoop st.queue st.executed st.submitted).1
    submitted := (drainLoop st.queue st.executed st.submitted).2 }

inductive Op where
  | ready (c : Cb)
  | setReady

def applyOp : Op → GateState → GateState
  | .ready c, st => ready c st
  | .setReady, st => setReady st

def runOps : List Op → GateState → GateState
  | [], st => st
  | op :: ops, st => runOps ops (applyOp op st)

def initialGate : GateState :=
  { isReady := false, queue := [], executed := [], submitted := [] }

theorem runOps_append (a b : List Op) (st : GateState) :
    runOps (a ++ b) st = runOps b (runOps a st) := by
  induction a generalizing st with
  | nil => simp [runOps]
  | cons op ops ih => simp [runOps, ih]

theorem readyNowStack_spec (l : List Cb) (st : GateState) :
    readyNowStack l st =
      { st with executed := st.executed ++ preorderList l
                submitted := st.submitted ++ preorderList l } := by
  match l with
  | [] => simp [readyNowStack, preorderList]
  | .node i cs :: rest =>
      rw [readyNowStack, preorderList, readyNowStack_spec (cs ++ rest)]
      simp
termination_by sizeList l
decreasing_by
  simp [sizeList, Cb.size, sizeList_append]

theorem drainLoop_balanced (q : List Cb) (ex sub : List Nat)
    (h : sub = ex ++ q.map Cb.id) :
    (drainLoop q ex sub).1 = (drainLoop q ex sub).2 := by
  match q with
  | [] =>
      subst h
      simp [drainLoop]
  | .node i cs :: rest =>
      rw [drainLoop]
      exact drainLoop_balanced (rest ++ cs) (ex ++ [i]) (sub ++ cs.map Cb.id)
        (by subst h; simp [Cb.id])
termination_by sizeList q
decreasing_by
  simp [sizeList, Cb.size, sizeList_append]
  omega

theorem runOps_ready_queued (pre : List Cb) (st : GateState)
    (h : st.isReady = false) :
    runOps (pre.map Op.ready) st =
      { st with queue := st.queue ++ pre
                submitted := st.submitted ++ pre.map Cb.id } := by
  induction pre generalizing st with
  | nil => simp [runOps]
  | cons c cs ih =>
      simp only [List.map_cons, runOps, applyOp, ready, h, Bool.false_eq_true,
        if_false]
      rw [ih { isReady := false, queue := st.queue ++ [c], executed := st.executed,
               submitted := st.submitted ++ [c.id] } rfl]
      simp

/-- Trace of labels produced by running a list of callbacks immediately,
one external `ready` call after the other. -/
def immediateTrace : List Cb → List Nat
  | [] => []
  | c :: cs => preorderList [c] ++ immediateTrace cs

theorem runOps_ready_immediate (post : List Cb) (st : GateState)
    (h : st.isReady = true) :
    runOps (post.map Op.ready) st =
      { st with executed := st.executed ++ immediateTrace post
                submitted := st.submitted ++ immediateTrace post } := by
  induction post generalizing st with
  | nil => simp [runOps, immediateTrace]
  | cons c cs ih =>
      simp only [List.map_cons, runOps, applyOp, ready]
      rw [if_pos h, readyNowStack_spec]
      rw [ih { st with executed := st.executed ++ preorderList [c]
                       submitted := st.submitted ++ preorderList [c] } h]
      simp [immediateTrace]

/-- C1: for every sequence of `ready` calls issued before and after
`setReady`, every callback is executed exactly once and in submission
order — the final `executed` log equals the `submitted` log, which records
one entry per `ready` call in the order the calls were made (including
re-entrant calls issued from inside draining callbacks) — and the queue is
empty after the script, so callbacks enqueued during the drain were
consumed on the same drain pass rather than left behind by a fixed-length
snapshot iteration. -/
theorem c1_ready_setReady_drain (pre post : List Cb) :
    (runOps (pre.map Op.ready ++ Op.setReady :: post.map Op.ready)
        initialGate).executed =
      (runOps (pre.map Op.ready ++ Op.setReady :: post.map Op.ready)
        initialGate).submitted ∧
    (runOps (pre.map Op.ready ++ Op.setReady :: post.map Op.ready)
        initialGate).queue = [] := by
  rw [runOps_append, runOps_ready_queued pre initialGate rfl]
  have hstep :
      runOps (Op.setReady :: post.map Op.ready)
          { initialGate with queue := initialGate.queue ++ pre
                             submitted := initialGate.submitted ++ pre.map Cb.id } =
        runOps (post.map Op.ready)
          (setReady
            { initialGate with queue := initialGate.queue ++ pre
                               submitted := initialGate.submitted ++ pre.map Cb.id }) := rfl
  rw [hstep]
  rw [runOps_ready_immediate _ _ (by simp [setReady])]
  have hbal := drainLoop_balanced pre [] (pre.map Cb.id) (by simp)
  constructor
  · simp only [setReady, initialGate]
    simp only [List.nil_append]
    rw [hbal]
  · simp [setReady]

end Gate

namespace GateX

/-- A callback for the drain-with-exceptions model.  `node i th cs` is the
callback labelled `i`; if `th` is `true` its body throws (before issuing
any `ready` calls), otherwise it calls `ready` once per element of `cs`. -/
inductive CbT where
  | node (label : Nat) (thr : Bool) (children : List CbT)

def CbT.id : CbT → Nat
  | .node i _ _ => i

def CbT.throwsFlag : CbT → Bool
  | .node _ th _ => th

def CbT.children : CbT → List CbT
  | .node _ _ cs => cs

mutual

def CbT.size : CbT → Nat
  | .node _ _ cs => 1 + sizeListT cs

def sizeListT : List CbT → Nat
  | [] => 0
  | c :: cs => CbT.size c + sizeListT cs

end

theorem sizeListT_append (a b : List CbT) :
    sizeListT (a ++ b) = sizeListT a + sizeListT b := by
  induction a with
  | nil => simp [sizeListT]
  | cons c cs ih => simp [sizeListT, ih]; omega

/-- Outcome of `setReady`'s drain loop when callbacks may throw. -/
structure DrainOut where
  executed : List Nat
  remaining : List CbT
  becameReady : Bool

/-- The drain loop of `setReady` with exceptions made explicit.  The
source has no try/catch around `callback()`:
`while ((callback = this.queue.shift())) { callback(); } this.isReady = true;`
so when a callback throws, the exception propagates out of `setReady` —
the loop stops with the rest of the queue still pending and the
`isReady = true` statement never runs. -/
def drainT : List CbT → List Nat → DrainOut
  | [], ex => { executed := ex, remaining := [], becameReady := true }
  | .node i th cs :: rest, ex =>
      if th then { executed := ex ++ [i], remaining := rest, becameReady := false }
      else drainT (rest ++ cs) (ex ++ [i])
termination_by q _ => sizeListT q
decreasing_by
  simp [sizeListT, CbT.size, sizeListT_append]
  omega

/-- Children enqueued by running a list of (non-throwing) callbacks. -/
def childrenAll : List CbT → List CbT
  | [] => []
  | .node _ _ cs :: rest => cs ++ childrenAll rest

/-- C4 counterexample: with queue `[cb1, cb2]` where `cb1` throws, the
drain executes only `cb1`; `cb2` is left unexecuted in the queue and the
ready flag is never set — refuting the claim that a throwing callback
does not prevent the remaining queued callbacks from executing. -/
theorem c4_counterexample :
    (drainT [CbT.node 1 true [], CbT.node 2 false []] []).executed = [1] ∧
    (drainT [CbT.node 1 true [], CbT.node 2 false []] []).remaining
      = [CbT.node 2 false []] ∧
    (drainT [CbT.node 1 true [], CbT.node 2 false []] []).becameReady = false := by
  refine ⟨?_, ?_, ?_⟩ <;> simp [drainT]

/-- C4 (amended): a queued callback that throws aborts the drain.  If the
queue is `pre ++ thrower :: post` and nothing in `pre` throws, the drain
executes exactly the callbacks of `pre` (in order) followed by the
thrower, leaves `post` — and every callback enqueued re-entrantly by
`pre` — unexecuted in the queue, and the ready flag is not set. -/
theorem c4_throwing_callback_aborts_drain (pre post : List CbT) (i : Nat)
    (cs : List CbT) (ex : List Nat)
    (hpre : ∀ c ∈ pre, c.throwsFlag = false) :
    drainT (pre ++ CbT.node i true cs :: post) ex =
      { executed := ex ++ pre.map CbT.id ++ [i]
        remaining := post ++ childrenAll pre
        becameReady := false } := by
  induction pre generalizing ex post with
  | nil => simp [drainT, childrenAll]
  | cons c pre ih =>
      obtain ⟨j, th, ccs⟩ := c
      have hth : th = false := hpre (CbT.node j th ccs) (by simp)
      subst hth
      rw [List.cons_append, drainT, if_neg (by simp)]
      rw [show (pre ++ CbT.node i true cs :: post) ++ ccs
            = pre ++ CbT.node i true cs :: (post ++ ccs) by simp]
      rw [ih (post ++ ccs) (ex ++ [j]) (fun c hc => hpre c (by simp [hc]))]
      simp [childrenAll, CbT.id]

/-- Witness for the amended C4 theorem at a concrete queue. -/
theorem c4_throwing_callback_aborts_drain_witness :
    (∀ c ∈ [CbT.node 0 false [CbT.node 5 false []]], c.throwsFlag = false) ∧
    drainT ([CbT.node 0 false [CbT.node 5 false []]]
        ++ CbT.node 1 true [] :: [CbT.node 2 false []]) [] =
      { executed := [0, 1]
        remaining := [CbT.node 2 false [], CbT.node 5 false []]
        becameReady := false } :=
  ⟨by simp [CbT.throwsFlag],
   by
    rw [c4_throwing_callback_aborts_drain [CbT.node 0 false [CbT.node 5 false []]]
      [CbT.node 2 false []] 1 [] [] (by simp [CbT.throwsFlag])]
    simp [childrenAll, CbT.id]⟩

end GateX

namespace EventQ

/-- An analytics event record as constructed by `track`:
`{ name, properties, user_properties, timestamp, insert_id }`, with
`user_id`/`device_id` stamped later inside the `ready` callback.  The
declared record also carries an `id` field because the removal loop in
`trackEvent` reads `this.eventQueue[i].id` and `event.id`; no code path
ever assigns it, so it is `none` (JavaScript `undefined`) on every record,
and `undefined === undefined` evaluates to true. -/
structure EventData where
  name : String
  properties : Json
  user_properties : Json
  timestamp : Nat
  insert_id : String
  user_id : Option String := none
  device_id : Option String := none
  id : Option String := none

/-- Association-list field lookup inside a JSON object. -/
def lookupField : List (String × Json) → String → Option Json
  | [], _ => none
  | (k, v) :: fs, key => if k = key then some v else lookupField fs key

def getStr? : Option Json → Option String
  | some (.str s) => some s
  | _ => none

def getNat? : Option Json → Option Nat
  | some (.num (.ofNat n)) => some n
  | _ => none

/-- JSON-object form of a record, as `JSON.stringify` produces it: the
always-present fields plus the optional identifier fields when set
(`stringify` omits `undefined` properties). -/
def EventData.toJson (e : EventData) : Json :=
  .obj ([("name", .str e.name), ("properties", e.properties),
         ("user_properties", e.user_properties),
         ("timestamp", .num (Int.ofNat e.timestamp)),
         ("insert_id", .str e.insert_id)]
    ++ (match e.user_id with | some u => [("user_id", Json.str u)] | none => [])
    ++ (match e.device_id with | some d => [("device_id", Json.str d)] | none => [])
    ++ (match e.id with | some i => [("id", Json.str i)] | none => []))

/-- Reading a record back from its JSON-object form (`JSON.parse` of the
persisted cookie). -/
def EventData.fromJson (j : Json) : Option EventData :=
  match j with
  | .obj fs =>
      match getStr? (lookupField fs "name"), lookupField fs "properties",
          lookupField fs "user_properties", getNat? (lookupField fs "timestamp"),
          getStr? (lookupField fs "insert_id") with
      | some n, some p, some up, some t, some iid =>
          some { name := n, properties := p, user_properties := up,
                 timestamp := t, insert_id := iid,
                 user_id := getStr? (lookupField fs "user_id"),
                 device_id := getStr? (lookupField fs "device_id"),
                 id := getStr? (lookupField fs "id") }
      | _, _, _, _, _ => none
  | _ => none

/-- The persisted backlog is the JSON array of the queue's records
(`JSON.stringify(this.eventQueue)`). -/
def encodeBacklog (q : List EventData) : Json :=
  .arr (q.map EventData.toJson)

def decodeRecords : List Json → Option (List EventData)
  | [] => some []
  | j :: js =>
      match EventData.fromJson j, decodeRecords js with
      | some e, some es => some (e :: es)
      | _, _ => none

def decodeBacklog : Json → Option (List EventData)
  | .arr js => decodeRecords js
  | _ => none

theorem fromJson_toJson (e : EventData) :
    EventData.fromJson (EventData.toJson e) = some e := by
  obtain ⟨n, p, up, t, iid, u, d, i⟩ := e
  cases u <;> cases d <;> cases i <;>
    simp [EventData.toJson, EventData.fromJson, lookupField, getStr?, getNat?]

theorem decode_encode (q : List EventData) :
    decodeBacklog (encodeBacklog q) = some q := by
  induction q with
  | nil => simp [encodeBacklog, decodeBacklog, decodeRecords]
  | cons e es ih =>
      simp only [encodeBacklog, decodeBacklog, List.map_cons, decodeRecords,
        fromJson_toJson]
      simp only [encodeBacklog, decodeBacklog] at ih
      rw [ih]

/-- `canStringify` is defined in `src/utils`, which is outside the sources
under review.  Modelled from the spec: storage is assumed available as a
plain key/value store (§1, §6), so JSON stringification is treated as
supported. -/
def canStringify : Bool := true

/-- Effects issued by the event-queue code, in program order. -/
inductive TrackEffect where
  | persist (payload : Json)
  | scheduleSend (delayMs : Nat) (ev : EventData)

/-- `saveEventQueue()`: persist the whole in-memory backlog
(`setCookie(EventsKey, JSON.stringify(this.eventQueue), 1)`). -/
def saveEventQueue (q : List EventData) : List TrackEffect :=
  if canStringify then [.persist (encodeBacklog q)] else []

/-- The record constructed synchronously by `track(name, properties,
userProperties)`; the fresh insertion id and the millisecond timestamp
are produced by `u.generateId()` / `u.timestamp()` (environment-supplied
here). -/
def trackRecord (name : String) (properties userProperties : Json)
    (timestamp : Nat) (insertId : String) : EventData :=
  { name := name, properties := properties, user_properties := userProperties,
    timestamp := timestamp, insert_id := insertId }

structure TrackState where
  eventQueue : List EventData

/-- Body of the `ready` callback registered by `track`: stamp the record
with the user/device identifier, push it onto the in-memory backlog,
persist the backlog (`saveEventQueue`), then schedule the network
delivery attempt after the fixed 1000 ms delay
(`setTimeout(() => this.trackEvent(event), 1000)`). -/
def trackReadyBody (st : TrackState) (uid : Option String) (ev : EventData) :
    TrackState × List TrackEffect :=
  let stamped := { ev with user_id := uid, device_id := uid }
  let q2 := st.eventQueue ++ [stamped]
  (⟨q2⟩, saveEventQueue q2 ++ [.scheduleSend 1000 stamped])

/-- C3: every event accepted by `track` is appended to the in-memory
backlog, the whole backlog is persisted before the delivery attempt for
that record is scheduled (the persist effect precedes the schedule effect
in the trace and carries the serialization of the full updated queue),
and the persisted backlog decodes back to exactly the in-memory backlog —
the storage round-trip loses none of a record's fields. -/
theorem c3_persist_before_send (st : TrackState) (uid : Option String)
    (name : String) (properties userProperties : Json) (timestamp : Nat)
    (insertId : String) :
    (trackReadyBody st uid
        (trackRecord name properties userProperties timestamp insertId)).1.eventQueue
      = st.eventQueue
        ++ [{ trackRecord name properties userProperties timestamp insertId with
              user_id := uid, device_id := uid }] ∧
    (trackReadyBody st uid
        (trackRecord name properties userProperties timestamp insertId)).2
      = [.persist (encodeBacklog ((trackReadyBody st uid
            (trackRecord name properties userProperties timestamp insertId)).1.eventQueue)),
         .scheduleSend 1000
           { trackRecord name properties userProperties timestamp insertId with
             user_id := uid, device_id := uid }] ∧
    decodeBacklog (encodeBacklog ((trackReadyBody st uid
        (trackRecord name properties userProperties timestamp insertId)).1.eventQueue))
      = some ((trackReadyBody st uid
          (trackRecord name properties userProperties timestamp insertId)).1.eventQueue) := by
  refine ⟨rfl, ?_, decode_encode _⟩
  simp [trackReadyBody, saveEventQueue, canStringify]

/-- The removal loop in `trackEvent`'s success handler:
```
for (let i = 0; i < this.eventQueue.length; i++) {
  if (this.eventQueue[i].id === event.id) { this.eventQueue.splice(i, 1); break }
}
```
removes the first queue entry whose `id` field strictly equals the
delivered event's `id` field. -/
def removeDeliveredEvent : List EventData → EventData → List EventData
  | [], _ => []
  | r :: rest, ev =>
      if r.id = ev.id then rest else r :: removeDeliveredEvent rest ev

def sampleRecordA : EventData :=
  { name := "paywall_shown", properties := .obj [], user_properties := .obj [],
    timestamp := 100, insert_id := "insert-a" }

def sampleRecordB : EventData :=
  { name := "paywall_closed", properties := .obj [], user_properties := .obj [],
    timestamp := 200, insert_id := "insert-b" }

/-- C2: evaluating the removal code at the failing input.  The backlog
holds records with insertion ids "insert-a" and "insert-b"; the remote
call for the second record succeeds.  Because the comparison reads the
never-populated `id` field (`undefined === undefined` is true at index 0),
the code removes the FIRST record and keeps the delivered one — not the
record matched by insertion id, as the claim (and the spec's stated
intent) requires. -/
theorem c2_removal_matches_wrong_record :
    removeDeliveredEvent [sampleRecordA, sampleRecordB] sampleRecordB
      = [sampleRecordB] ∧
    sampleRecordA.insert_id ≠ sampleRecordB.insert_id := by
  constructor
  · rfl
  · decide

end EventQ

/-- Modelled from the spec: the TTL constants live in `src/config/constants`,
outside the sources under review.  §6 gives the selected placement/product
and deep-link storage entries a short-lived "selection duration" TTL in
days; the concrete number does not matter to any claim, only that one
bounded constant is used wherever the source names
`SelectedProductDuration`. -/
def SelectedProductDuration : Nat := 1

namespace Sel

/-- A purchasable product: the plan id used to create a subscription plus
an open-ended property bag used for on-page substitution (absent
`properties` models a record without that field). -/
structure Product where
  base_plan_id : Option String := none
  properties : Option Json := none

structure Paywall where
  id : String
  items : List Product

structure Placement where
  identifier : String
  paywalls : List Paywall

/-- Selection-relevant state of the SDK object: the session's placements,
the three explicit-selection fields (`undefined` modelled as `none`), and
the `SelectedProductIndex` cookie contents. -/
structure SelState where
  placements : List Placement
  _currentPlacement : Option Placement := none
  _currentPaywall : Option Paywall := none
  _currentProduct : Option Product := none
  savedSelection : Option String := none

/-- `findPlacementByID`: linear scan over the session's placement list. -/
def findPlacementByID (st : SelState) (id : String) : Option Placement :=
  st.placements.find? fun elm => elm.identifier == id

/-- Lookup with a possibly-undefined id: `placements.find(elm =>
elm.identifier === undefined)` never matches. -/
def findPlacementByIDOpt (st : SelState) : Option String → Option Placement
  | none => none
  | some id => findPlacementByID st id

/-- JavaScript list indexing with a signed index: negative or
out-of-range yields `undefined`. -/
def itemAtInt (l : List Product) : Int → Option Product
  | .ofNat n => l[n]?
  | .negSucc _ => none

/-- Indexing where the index itself may be `NaN` (modelled `none`):
`items[NaN]` is `undefined`. -/
def itemAtIdx (l : List Product) : Option Int → Option Product
  | none => none
  | some i => itemAtInt l i

/-- `setCurrentItems(placementID, productIndex)`: unconditionally
overwrite `_currentPlacement` with the lookup result (possibly
`undefined`), and only when a placement was found and has at least one
paywall also set `_currentPaywall` to its first paywall and
`_currentProduct` to that paywall's item at `productIndex`. -/
def setCurrentItems (st : SelState) (placementID : String) (productIndex : Int) :
    SelState :=
  let found := findPlacementByID st placementID
  match found with
  | some p =>
      match p.paywalls.head? with
      | some pw =>
          { st with _currentPlacement := some p, _currentPaywall := some pw,
                    _currentProduct := itemAtInt pw.items productIndex }
      | none => { st with _currentPlacement := some p }
  | none => { st with _currentPlacement := none }

/-- `currentPlacement()`: explicit selection, else the session's first
placement, else no value. -/
def currentPlacement (st : SelState) : Option Placement :=
  match st._currentPlacement with
  | some p => some p
  | none => st.placements.head?

/-- `currentPaywall()`: explicit selection, else the current placement's
first paywall, else no value. -/
def currentPaywall (st : SelState) : Option Paywall :=
  match st._currentPaywall with
  | some pw => some pw
  | none =>
      match currentPlacement st with
      | some p => p.paywalls.head?
      | none => none

/-- `currentProduct()`: explicit selection, else the current paywall's
item 0, else no value. -/
def currentProduct (st : SelState) : Option Product :=
  match st._currentProduct with
  | some p => some p
  | none =>
      match currentPaywall st with
      | some pw => pw.items.head?
      | none => none

/-- Effects issued by `selectPlacementProduct`. -/
inductive SelEffect where
  | persistSelection (value : String) (ttlDays : Nat)
  | emitProductChanged (p : Option Product)

/-- `selectPlacementProduct(placementID, productIndex)`: update the
current items, persist `"placementID,productIndex"` with the
selection-duration TTL, then emit `product_changed` with the (new)
current product. -/
def selectPlacementProduct (st : SelState) (placementID : String)
    (productIndex : Int) : SelState × List SelEffect :=
  let st1 := setCurrentItems st placementID productIndex
  let st2 := { st1 with savedSelection := some (s!"{placementID},{productIndex}") }
  (st2, [.persistSelection (s!"{placementID},{productIndex}") SelectedProductDuration,
         .emitProductChanged (currentProduct st2)])

theorem setCurrentItems_placements (st : SelState) (pid : String) (idx : Int) :
    (setCurrentItems st pid idx).placements = st.placements := by
  simp only [setCurrentItems]
  cases hf : findPlacementByID st pid with
  | none => rfl
  | some p => cases hpw : p.paywalls.head? <;> simp [hpw]

theorem setCurrentItems_unknown (st : SelState) (pid : String) (idx : Int)
    (h : findPlacementByID st pid = none) :
    setCurrentItems st pid idx = { st with _currentPlacement := none } := by
  unfold setCurrentItems
  rw [h]

/-- C5: the three accessors implement exactly the three-level fallback
explicit selection → first item of the parent collection → no value, so a
best-effort value (never an error) is returned whenever data exists at
the relevant level. -/
theorem c5_three_level_fallback (st : SelState) :
    currentPlacement st = st._currentPlacement.or st.placements.head? ∧
    currentPaywall st
      = st._currentPaywall.or
          ((currentPlacement st).bind fun p => p.paywalls.head?) ∧
    currentProduct st
      = st._currentProduct.or
          ((currentPaywall st).bind fun pw => pw.items.head?) := by
  refine ⟨?_, ?_, ?_⟩
  · cases h : st._currentPlacement <;> simp [currentPlacement, h, Option.or]
  · cases h : st._currentPaywall with
    | some pw => simp [currentPaywall, h, Option.or]
    | none =>
        simp only [currentPaywall, h, Option.or]
        cases hp : currentPlacement st <;> simp
  · cases h : st._currentProduct with
    | some p => simp [currentProduct, h, Option.or]
    | none =>
        simp only [currentProduct, h, Option.or]
        cases hp : currentPaywall st <;> simp

/-- C6: calling the selection operation with an unknown placement id is
not fatal: when a prior call resolved an explicit current product, a
second call with an id that is not in the session's placement list leaves
`currentProduct()` returning that prior resolved product. -/
theorem c6_unknown_id_keeps_prior_product (st : SelState) (pid pid2 : String)
    (idx idx2 : Int) (p : Product)
    (hsel : ((selectPlacementProduct st pid idx).1)._currentProduct = some p)
    (hunknown : findPlacementByID st pid2 = none) :
    currentProduct
        ((selectPlacementProduct
            (selectPlacementProduct st pid idx).1 pid2 idx2).1) = some p ∧
    currentProduct ((selectPlacementProduct st pid idx).1) = some p := by
  have hplac :
      findPlacementByID (selectPlacementProduct st pid idx).1 pid2 = none := by
    unfold findPlacementByID at hunknown ⊢
    simpa [selectPlacementProduct, setCurrentItems_placements] using hunknown
  constructor
  · show currentProduct
      { setCurrentItems (selectPlacementProduct st pid idx).1 pid2 idx2 with
        savedSelection := some _ } = some p
    rw [setCurrentItems_unknown _ _ idx2 hplac]
    simp [currentProduct, hsel]
  · simp [currentProduct, hsel]

def demoProductA : Product :=
  { base_plan_id := some "plan-weekly"
    properties := some (.obj [("price", .str "4.99")]) }

def demoProductB : Product :=
  { base_plan_id := some "plan-yearly"
    properties := some (.obj [("price", .str "49.99")]) }

def demoStateC6 : SelState :=
  { placements :=
      [{ identifier := "main"
         paywalls := [{ id := "pw-main", items := [demoProductA, demoProductB] }] }] }

/-- Witness: one placement, one paywall, two products; select
`("main", 1)`, then select an unknown id — `currentProduct()` still
returns product 1. -/
theorem c6_unknown_id_keeps_prior_product_witness :
    ((selectPlacementProduct demoStateC6 "main" 1).1)._currentProduct
      = some demoProductB ∧
    findPlacementByID demoStateC6 "unknown-id" = none ∧
    currentProduct
        ((selectPlacementProduct
            (selectPlacementProduct demoStateC6 "main" 1).1 "unknown-id" 0).1)
      = some demoProductB :=
  ⟨rfl, rfl,
   (c6_unknown_id_keeps_prior_product demoStateC6 "main" "unknown-id" 1 0
      demoProductB rfl rfl).1⟩

/-- C10: after the selection operation is called with a placement id that
is not in the session's list, the stored current placement is overwritten
with no value — `currentPlacement()` falls back to the session's first
placement — while the stored current paywall and current product keep
their prior values, so the exposed triple can mix two placements. -/
theorem c10_unknown_id_splits_selection (st : SelState) (pid : String) (idx : Int)
    (h : findPlacementByID st pid = none) :
    (setCurrentItems st pid idx)._currentPlacement = none ∧
    (setCurrentItems st pid idx)._currentPaywall = st._currentPaywall ∧
    (setCurrentItems st pid idx)._currentProduct = st._currentProduct ∧
    currentPlacement (setCurrentItems st pid idx) = st.placements.head? := by
  rw [setCurrentItems_unknown st pid idx h]
  exact ⟨rfl, rfl, rfl, by simp [currentPlacement]⟩

def demoPlacementA : Placement :=
  { identifier := "pA", paywalls := [{ id := "pw-a", items := [demoProductA] }] }

def demoPlacementB : Placement :=
  { identifier := "pB", paywalls := [{ id := "pw-b", items := [demoProductB] }] }

def demoStateC10 : SelState :=
  setCurrentItems { placements := [demoPlacementA, demoPlacementB] } "pB" 0

/-- Witness: with an explicit selection of the second placement in place,
an unknown-id call leaves the paywall/product of placement `pB` exposed
while `currentPlacement()` reports the first placement `pA`. -/
theorem c10_unknown_id_splits_selection_witness :
    findPlacementByID demoStateC10 "nope" = none ∧
    currentPlacement (setCurrentItems demoStateC10 "nope" 7) = some demoPlacementA ∧
    currentPaywall (setCurrentItems demoStateC10 "nope" 7)
      = some { id := "pw-b", items := [demoProductB] } :=
  ⟨rfl,
   by
    rw [(c10_unknown_id_splits_selection demoStateC10 "nope" 7 rfl).2.2.2]
    rfl,
   by
    rw [setCurrentItems_unknown demoStateC10 "nope" 7 rfl]
    rfl⟩

end Sel

namespace Sel

/-- JavaScript `String.prototype.split` with a single-character
separator. -/
def splitOnChar (sep : Char) : List Char → List (List Char)
  | [] => [[]]
  | c :: cs =>
      match splitOnChar sep cs with
      | [] => [[]]
      | h :: t => if c = sep then [] :: h :: t else (c :: h) :: t

/-- JavaScript `String.prototype.trim`. -/
def trimChars (cs : List Char) : List Char :=
  ((cs.dropWhile Char.isWhitespace).reverse.dropWhile Char.isWhitespace).reverse

/-- `key.split(sep).map(s => s.trim())`. -/
def keyParts (s : String) (sep : Char) : List String :=
  (splitOnChar sep s.toList).map fun cs => String.mk (trimChars cs)

/-- `s.split(sep)` without trimming. -/
def splitParts (s : String) (sep : Char) : List String :=
  (splitOnChar sep s.toList).map fun cs => String.mk cs

def leadingDigits (cs : List Char) : Option Nat :=
  let ds := cs.takeWhile Char.isDigit
  if ds.isEmpty then none
  else some (ds.foldl (fun acc c => acc * 10 + (c.toNat - 48)) 0)

/-- JavaScript `parseInt(s)` in base 10: trim, optional sign, then the
longest digit run; no digits means `NaN`, modelled as `none`. -/
def parseIntJs (s : String) : Option Int :=
  match trimChars s.toList with
  | '-' :: rest => (leadingDigits rest).map fun n => -(n : Int)
  | '+' :: rest => (leadingDigits rest).map fun n => (n : Int)
  | cs => (leadingDigits cs).map fun n => (n : Int)

/-- `NaN < 0` is false in JavaScript, so only an actually-parsed negative
index satisfies the `productIndex < 0` guard. -/
def intIsNeg : Option Int → Bool
  | some n => decide (n < 0)
  | none => false

/-- Result of `getSavedPlacementProductIndex`: the parsed
`SelectedProductIndex` cookie, with `undefined` id and possibly-`NaN`
index. -/
structure SavedSelection where
  placementID : Option String
  productIndex : Option Int

/-- `getSavedPlacementProductIndex()`: parse the saved
`"placementID,productIndex"` cookie; anything but exactly two
comma-separated parts yields `{undefined, 0}`. -/
def getSavedPlacementProductIndex (st : SelState) : SavedSelection :=
  match st.savedSelection with
  | some savedIndices =>
      let arr := keyParts savedIndices ','
      if arr.length = 2 then
        { placementID := some (arr.getD 0 ""), productIndex := parseIntJs (arr.getD 1 "") }
      else { placementID := none, productIndex := some 0 }
  | none => { placementID := none, productIndex := some 0 }

/-- Modelled from the spec: `u.getValueByPath` lives in `src/utils`,
outside the sources under review.  Per §4.3 it looks the dotted key path
up inside the product's property bag, yielding the substitution string at
the path or no value when the path is missing. -/
def walkPath : Json → List String → Option String
  | .str s, [] => some s
  | _, [] => none
  | .obj fs, k :: ks =>
      match EventQ.lookupField fs k with
      | some v => walkPath v ks
      | none => none
  | _, _ :: _ => none

def getValueByPath (bag : Json) (path : String) : Option String :=
  walkPath bag (splitParts path '.')

/-- The tail of `readVariableValueByKeyPath` once placement id and
product index are fixed: look the placement up (an undefined or unknown
id logs and returns null), then read
`placement.paywalls[0]!` / `paywall!.items[productIndex]`.  When the
placement has no paywalls, `paywalls[0]!` is `undefined` and the
`paywall!.items` access throws a TypeError, modelled as `.error ()`;
a missing product or missing `properties` returns null. -/
def resolveVariableAt (st : SelState) (placementID : Option String)
    (productIndex : Option Int) (path : String) : Except Unit (Option String) :=
  match findPlacementByIDOpt st placementID with
  | none => .ok none
  | some placement =>
      match placement.paywalls.head? with
      | none => .error ()
      | some paywall =>
          match itemAtIdx paywall.items productIndex with
          | none => .ok none
          | some product =>
              match product.properties with
              | none => .ok none
              | some props => .ok (getValueByPath props path)

/-- `readVariableValueByKeyPath` on the already-split-and-trimmed parts:
`path` is the last part; a three-part key parses an explicit placement id
and product index, falling back to the saved selection only when the
guard `placementID === null || productIndex < 0` fires — and since a
split substring is a string (never null), only the negative-index
disjunct can fire; a one-part key uses the saved selection; any other
arity keeps the defaults `undefined, 0`. -/
def readVarParts (st : SelState) (keyArr : List String) :
    Except Unit (Option String) :=
  let path := keyArr.getD (keyArr.length - 1) ""
  if keyArr.length = 3 then
    let pid := keyArr.getD 0 ""
    let pidx := parseIntJs (keyArr.getD 1 "")
    if intIsNeg pidx then
      let saved := getSavedPlacementProductIndex st
      resolveVariableAt st saved.placementID saved.productIndex path
    else
      resolveVariableAt st (some pid) pidx path
  else if keyArr.length = 1 then
    let saved := getSavedPlacementProductIndex st
    resolveVariableAt st saved.placementID saved.productIndex path
  else
    resolveVariableAt st none (some 0) path

def readVariableValueByKeyPath (st : SelState) (key : String) :
    Except Unit (Option String) :=
  readVarParts st (keyParts key ',')

def demoStateC7 : SelState :=
  { placements :=
      [{ identifier := "p1"
         paywalls :=
           [{ id := "pw-1"
              items := [{ base_plan_id := some "plan-m"
                          properties := some (.obj [("price", .str "9.99")]) }] }] }]
    savedSelection := some "p1,0" }

/-- C7 counterexample: with the saved selection `"p1,0"` resolving to a
product whose `price` property is `"9.99"` (second conjunct: the bare
path does use the saved selection and finds the value), the composite key
`",0,price"` — placement-id part absent/empty, index non-negative — does
NOT fall back to the saved selection: the source's `placementID === null`
test never matches a split substring, the empty id fails the placement
lookup, and the resolution yields no value instead of the saved
selection's `"9.99"`.  This refutes the claim that an absent id part
makes the persisted/default selection be used. -/
theorem c7_absent_id_does_not_fall_back :
    readVariableValueByKeyPath demoStateC7 ",0,price" = .ok none ∧
    readVariableValueByKeyPath demoStateC7 "price" = .ok (some "9.99") :=
  ⟨rfl, rfl⟩

/-- C7 (amended): in the composite `placementID,productIndex,path` form
the persisted/default selection is used exactly when the parsed product
index is negative (an absent/empty placement-id part or a `NaN` index
does not trigger the fallback); a bare path uses the persisted/default
selection; and resolution errors only in the unclaimed edge case of a
found placement with an empty paywall list — a missing placement,
product, or path yields no value, not an error. -/
theorem c7_variable_resolution (st : SelState) (pid idxs path : String) :
    (readVarParts st [pid, idxs, path] =
      if intIsNeg (parseIntJs idxs) then
        resolveVariableAt st (getSavedPlacementProductIndex st).placementID
          (getSavedPlacementProductIndex st).productIndex path
      else resolveVariableAt st (some pid) (parseIntJs idxs) path) ∧
    (readVarParts st [path] =
      resolveVariableAt st (getSavedPlacementProductIndex st).placementID
        (getSavedPlacementProductIndex st).productIndex path) ∧
    (resolveVariableAt st (some pid) (parseIntJs idxs) path = .error () ↔
      ∃ placement, findPlacementByID st pid = some placement ∧
        placement.paywalls = []) := by
  refine ⟨?_, ?_, ?_⟩
  · simp [readVarParts]
  · simp [readVarParts]
  · unfold resolveVariableAt findPlacementByIDOpt
    cases hf : findPlacementByID st pid with
    | none => simp [hf]
    | some placement =>
        cases hpw : placement.paywalls.head? with
        | none =>
            have hnil : placement.paywalls = [] := by
              cases hl : placement.paywalls with
              | nil => rfl
              | cons a l => rw [hl] at hpw; simp at hpw
            simp [hf, hpw, hnil]
        | some paywall =>
            have hne : placement.paywalls ≠ [] := by
              intro hl
              rw [hl] at hpw
              simp at hpw
            simp only [hf, hpw]
            constructor
            · intro hcontra
              cases hit : itemAtIdx paywall.items (parseIntJs idxs) with
              | none => rw [hit] at hcontra; simp at hcontra
              | some product =>
                  rw [hit] at hcontra
                  cases hp : product.properties with
                  | none => simp [hp] at hcontra
                  | some props => simp [hp] at hcontra
            · rintro ⟨pl, hpl, hnil⟩
              cases hpl
              exact absurd hnil hne

end Sel

namespace StripeFormM

/-- Modelled from the spec: the storage key name for the post-purchase
deep link lives in `src/config/constants`, outside the sources under
review; it is an opaque key (§6 "deep link" entry). -/
def DeepLinkURL : String := "apphud_deep_link_url"

structure User where
  id : String

/-- A subscription created for one checkout attempt: the provider
confirmation secret and the optional post-purchase deep link. -/
structure Subscription where
  client_secret : String
  deep_link : Option String := none

structure StripeError where
  message : Option String := none

structure FormOptions where
  successUrl : Option String := none
  failureUrl : Option String := none

structure StripeConfig where
  baseSuccessURL : String
  redirectDelay : Nat

inductive Payload where
  | successPayload (user_id : String)
  | failurePayload (e : StripeError)

inductive BtnState where
  | loading
  | btnReady
  | processing

/-- Effects issued by the payment form, in program order. -/
inductive Effect where
  | emit (name : String) (p : Payload)
  | setButtonState (s : BtnState)
  | setErrorText (t : String)
  | elementsSubmit
  | confirmPayment (clientSecret : String) (returnUrl : String)
  | storeCookie (key : String) (value : String) (ttlDays : Nat)
  | delayedNavigate (delayMs : Nat) (url : String)
  | createSubscriptionCall (productId : String)

/-- `api.createSubscription`: issued once by `show()` (via
`createSubscription`) before the submit listener is installed; the submit
handler itself never issues it. -/
def createSubscriptionEffect (productId : String) : List Effect :=
  [.createSubscriptionCall productId]

/-- JavaScript string coercion of a possibly-undefined value, as in
`config.baseSuccessURL+'/'+deepLink`. -/
def jsStringOf : Option String → String
  | some s => s
  | none => "undefined"

/-- The redirect target chosen after a successful confirmation:
`options?.successUrl && options.successUrl !== 'undefined'` (truthy —
hence non-empty — and not the placeholder) selects the explicit URL,
anything else falls back to the base success URL suffixed with `'/'` and
the deep link. -/
def redirectTarget (options : FormOptions) (cfg : StripeConfig)
    (deepLink : Option String) : String :=
  match options.successUrl with
  | some s =>
      if s != "" && s != "undefined" then s
      else cfg.baseSuccessURL ++ "/" ++ jsStringOf deepLink
  | none => cfg.baseSuccessURL ++ "/" ++ jsStringOf deepLink

/-- The submit listener installed by `setupForm` (with Stripe and its
elements initialized, as arranged by `show`): disable the control with
the processing label, submit the collected elements, request
confirmation against the subscription's secret with the current page
location as return target, then branch on the confirmation error.
On error: emit `payment_failure` with the payload, write the message to
the error surface only if that element exists, re-enable the control
with the ready label.  On success: emit `payment_success` with the user
id, persist the deep link with the bounded selection-duration TTL when
`if (deepLink)` holds — JS truthiness, so an empty-string deep link is
skipped like an absent one — and navigate after the configured delay. -/
def submitHandler (user : User) (sub : Subscription) (options : FormOptions)
    (cfg : StripeConfig) (href : String) (hasErrorElement : Bool)
    (confirmError : Option StripeError) : List Effect :=
  [.setButtonState .processing, .elementsSubmit,
   .confirmPayment sub.client_secret href] ++
  (match confirmError with
   | some error =>
       [.emit "payment_failure" (.failurePayload error)] ++
       (if hasErrorElement then [.setErrorText (error.message.getD "")] else []) ++
       [.setButtonState .btnReady]
   | none =>
       [.emit "payment_success" (.successPayload user.id)] ++
       (match sub.deep_link with
        | some dl =>
            if dl != "" then [.storeCookie DeepLinkURL dl SelectedProductDuration]
            else []
        | none => []) ++
       [.delayedNavigate cfg.redirectDelay
          (redirectTarget options cfg sub.deep_link)])

def emitsOf (tr : List Effect) (name : String) : List Payload :=
  tr.filterMap fun e =>
    match e with
    | .emit n p => if n = name then some p else none
    | _ => none

def navigationsOf (tr : List Effect) : List (Nat × String) :=
  tr.filterMap fun e =>
    match e with
    | .delayedNavigate d u => some (d, u)
    | _ => none

def cookieWritesOf (tr : List Effect) : List (String × String × Nat) :=
  tr.filterMap fun e =>
    match e with
    | .storeCookie k v t => some (k, v, t)
    | _ => none

def confirmCallsOf (tr : List Effect) : List (String × String) :=
  tr.filterMap fun e =>
    match e with
    | .confirmPayment cs u => some (cs, u)
    | _ => none

def subscriptionCallsOf (tr : List Effect) : List String :=
  tr.filterMap fun e =>
    match e with
    | .createSubscriptionCall p => some p
    | _ => none

def errorTextsOf (tr : List Effect) : List String :=
  tr.filterMap fun e =>
    match e with
    | .setErrorText t => some t
    | _ => none

/-- The submit control: `disabled` attribute and `innerText`. -/
structure Button where
  disabled : Bool
  label : String

/-- `setButtonState`: "loading" disables; "ready" re-enables and restores
the captured ready label; "processing" disables and shows the processing
label. -/
def applyButtonState (readyText processingText : String) (b : Button) :
    BtnState → Button
  | .loading => { b with disabled := true }
  | .btnReady => { disabled := false, label := readyText }
  | .processing => { disabled := true, label := processingText }

def runButton (readyText processingText : String) (b : Button) :
    List Effect → Button
  | [] => b
  | .setButtonState s :: tr =>
      runButton readyText processingText
        (applyButtonState readyText processingText b s) tr
  | _ :: tr => runButton readyText processingText b tr

/-- C8: when the confirmation call returns no error, the handler emits
exactly one `payment_success` carrying the user identifier (and no
failure event), persists the deep link with the bounded TTL exactly when
the subscription carries a truthy (non-empty) one — the source guard is
`if (deepLink)` — issues exactly one navigation after the configured
delay, and the navigation target is the explicit success URL when it is
supplied (non-empty) and not the placeholder `'undefined'`, otherwise
the configured base success URL suffixed with `'/'` and the deep
link. -/
theorem c8_success_emits_once_and_redirects (user : User) (sub : Subscription)
    (options : FormOptions) (cfg : StripeConfig) (href : String)
    (hasErrorElement : Bool) :
    emitsOf (submitHandler user sub options cfg href hasErrorElement none)
        "payment_success" = [.successPayload user.id] ∧
    emitsOf (submitHandler user sub options cfg href hasErrorElement none)
        "payment_failure" = [] ∧
    cookieWritesOf (submitHandler user sub options cfg href hasErrorElement none)
      = (match sub.deep_link with
         | some dl =>
             if dl ≠ "" then [(DeepLinkURL, dl, SelectedProductDuration)] else []
         | none => []) ∧
    navigationsOf (submitHandler user sub options cfg href hasErrorElement none)
      = [(cfg.redirectDelay, redirectTarget options cfg sub.deep_link)] ∧
    redirectTarget options cfg sub.deep_link
      = (match options.successUrl with
         | some s =>
             if s ≠ "" ∧ s ≠ "undefined" then s
             else cfg.baseSuccessURL ++ "/" ++ jsStringOf sub.deep_link
         | none => cfg.baseSuccessURL ++ "/" ++ jsStringOf sub.deep_link) := by
  refine ⟨?_, ?_, ?_, ?_, ?_⟩
  · cases hdl : sub.deep_link with
    | none => simp [submitHandler, emitsOf, hdl]
    | some dl =>
        by_cases hne : dl = "" <;>
          simp [submitHandler, emitsOf, hdl, hne]
  · cases hdl : sub.deep_link with
    | none => simp [submitHandler, emitsOf, hdl]
    | some dl =>
        by_cases hne : dl = "" <;>
          simp [submitHandler, emitsOf, hdl, hne]
  · cases hdl : sub.deep_link with
    | none => simp [submitHandler, cookieWritesOf, hdl]
    | some dl =>
        by_cases hne : dl = "" <;>
          simp [submitHandler, cookieWritesOf, hdl, hne]
  · cases hdl : sub.deep_link with
    | none => simp [submitHandler, navigationsOf, hdl]
    | some dl =>
        by_cases hne : dl = "" <;>
          simp [submitHandler, navigationsOf, hdl, hne]
  · cases hs : options.successUrl with
    | none => simp [redirectTarget, hs]
    | some s =>
        simp only [redirectTarget, hs]
        refine if_congr ?_ rfl rfl
        simp [Bool.and_eq_true, bne_iff_ne]

/-- C9: when the confirmation call returns an error, the handler emits
exactly one `payment_failure` carrying the error payload (and no success
event), writes the error message to the error surface only when that
element exists, finishes with the submit control re-enabled and showing
its original ready label, performs no navigation — and a resubmission
runs this same handler again: it confirms against the same subscription's
secret and never issues a create-subscription call. -/
theorem c9_failure_emits_once_and_restores_button (user : User)
    (sub : Subscription) (options : FormOptions) (cfg : StripeConfig)
    (href : String) (hasErrorElement : Bool) (error : StripeError)
    (b : Button) (readyText processingText : String) :
    emitsOf (submitHandler user sub options cfg href hasErrorElement (some error))
        "payment_failure" = [.failurePayload error] ∧
    emitsOf (submitHandler user sub options cfg href hasErrorElement (some error))
        "payment_success" = [] ∧
    errorTextsOf (submitHandler user sub options cfg href hasErrorElement (some error))
      = (if hasErrorElement then [error.message.getD ""] else []) ∧
    runButton readyText processingText b
        (submitHandler user sub options cfg href hasErrorElement (some error))
      = { disabled := false, label := readyText } ∧
    confirmCallsOf (submitHandler user sub options cfg href hasErrorElement (some error))
      = [(sub.client_secret, href)] ∧
    subscriptionCallsOf (submitHandler user sub options cfg href hasErrorElement (some error))
      = [] ∧
    navigationsOf (submitHandler user sub options cfg href hasErrorElement (some error))
      = [] := by
  cases hasErrorElement <;>
    exact ⟨by simp [submitHandler, emitsOf],
           by simp [submitHandler, emitsOf],
           by simp [submitHandler, errorTextsOf],
           by simp [submitHandler, runButton, applyButtonState],
           by simp [submitHandler, confirmCallsOf],
           by simp [submitHandler, subscriptionCallsOf],
           by simp [submitHandler, navigationsOf]⟩

end StripeFormM
